import Mathlib

/-!
# Historical inventory handler: record normalization and request dispatch

A shallow embedding of `src/index.js` (the handler, the normalizer and the
data-store calls) and of `src/utils.js` (the second copy of the normalizer).

* JavaScript values are the values `JSON.parse` can produce, plus `undefined`
  (the value of a missing property).  Numbers are IEEE-754 binary64 values.
* A function that can throw returns `Except JSError _`.
* `randomUUID()` and `new Date().toISOString()` are inputs of `buildNewItem`
  (the string each call obtained); the request-level functions draw them from
  a `Host`, which also carries `JSON.parse`, `JSON.stringify`, `error.message`
  and the data-store client, none of which is code of this repository.
* `console.log`, `console.warn` and `console.error` calls are not modelled:
  they return nothing and, on the values above, do not throw.
-/

namespace HistoricalInventory

/-! ## Number values -/

/-- A Number value.  `fin neg m e` is the finite value `(-1)^neg * m * 2^e`,
kept in the unique form where `m` is odd, or `m = 0` and `e = 0` for the two
zeros. -/
inductive JSNumber where
  | nan
  | inf (neg : Bool)
  | fin (neg : Bool) (m : Nat) (e : Int)
  deriving DecidableEq

/-- The Number `0` (positive zero), the literal `0` of the source. -/
def JSNumber.zero : JSNumber := .fin false 0 0

/-- The Number `1`. -/
def JSNumber.one : JSNumber := .fin false 1 0

/-- Number of binary digits of `n` (`0` for `0`); `fuel` bounds the halvings. -/
def bitLength : Nat → Nat → Nat
  | 0, _ => 0
  | fuel + 1, n => if n = 0 then 0 else bitLength fuel (n / 2) + 1

/-- Move factors of two from the significand into the exponent. -/
def stripTwos : Nat → Nat → Int → Nat × Int
  | 0, m, e => (m, e)
  | fuel + 1, m, e => if m ≠ 0 ∧ m % 2 = 0 then stripTwos fuel (m / 2) (e + 1) else (m, e)

/-- Whether `2^E ≤ N / D`. -/
def scaleLe (D N : Nat) (E : Int) : Bool :=
  if 0 ≤ E then decide (D * 2 ^ E.toNat ≤ N) else decide (D ≤ N * 2 ^ (-E).toNat)

/-- The Number value for the positive rational `N / D` (`D > 0`) with sign
`neg`: round to nearest, ties to even, 53 significant bits, gradual underflow
below `2^-1022`, overflow to infinity from `2^1024` on (ECMA-262 6.1.6.1). -/
def roundToDouble (neg : Bool) (N D : Nat) : JSNumber :=
  if N = 0 then .fin neg 0 0 else
  let est : Int := (bitLength N N : Int) - (bitLength D D : Int)
  let E : Int := if scaleLe D N est then est else est - 1
  let p : Int := max (E - 52) (-1074)
  let num : Nat := if 0 ≤ p then N else N * 2 ^ (-p).toNat
  let den : Nat := if 0 ≤ p then D * 2 ^ p.toNat else D
  let q := num / den
  let r := num % den
  let m := if den < 2 * r ∨ (2 * r = den ∧ q % 2 = 1) then q + 1 else q
  if m = 0 then .fin neg 0 0
  else if 1024 < p + (bitLength m m : Int) then .inf neg
  else let c := stripTwos 64 m p; .fin neg c.1 c.2

/-- The Number value for `n * 10^e`. -/
def roundDecimal (neg : Bool) (n : Nat) (e : Int) : JSNumber :=
  if 0 ≤ e then roundToDouble neg (n * 10 ^ e.toNat) 1 else roundToDouble neg n (10 ^ (-e).toNat)

/-! ## `StringToNumber` (ECMA-262 7.1.4.1.1) -/

/-- White space and line terminators: the code points `String.prototype.trim`
removes, which are also the ones `StringToNumber` skips (`StrWhiteSpaceChar`). -/
def isWhiteSpace (c : Char) : Bool :=
  [0x09, 0x0B, 0x0C, 0x20, 0xA0, 0xFEFF, 0x0A, 0x0D, 0x2028, 0x2029,
    0x1680, 0x202F, 0x205F, 0x3000].contains c.toNat
    || (0x2000 ≤ c.toNat && c.toNat ≤ 0x200A)

/-- Remove leading and trailing white space. -/
def trimChars (cs : List Char) : List Char :=
  ((cs.dropWhile isWhiteSpace).reverse.dropWhile isWhiteSpace).reverse

/-- The method `String.prototype.trim`. -/
def trim (s : String) : String := String.mk (trimChars s.data)

/-- Value of a digit in the given radix, if `c` is one. -/
def digitValue (radix : Nat) (c : Char) : Option Nat :=
  let n := c.toNat
  let v : Option Nat :=
    if 48 ≤ n ∧ n ≤ 57 then some (n - 48)
    else if 97 ≤ n ∧ n ≤ 102 then some (n - 87)
    else if 65 ≤ n ∧ n ≤ 70 then some (n - 55)
    else none
  v.bind fun d => if d < radix then some d else none

/-- Longest run of digits at the head of `cs`, and what follows it. -/
def spanDigits (radix : Nat) : List Char → List Nat × List Char
  | [] => ([], [])
  | c :: cs =>
    match digitValue radix c with
    | some d => let r := spanDigits radix cs; (d :: r.1, r.2)
    | none => ([], c :: cs)

/-- The integer written by a list of digits. -/
def digitsValue (radix : Nat) (ds : List Nat) : Nat :=
  ds.foldl (fun a d => a * radix + d) 0

/-- `NonDecimalIntegerLiteral`: `0x`, `0o` or `0b` followed by digits only. -/
def parseNonDecimal (cs : List Char) : Option Nat :=
  match cs with
  | '0' :: p :: rest =>
    let radix : Option Nat :=
      if p = 'x' ∨ p = 'X' then some 16
      else if p = 'o' ∨ p = 'O' then some 8
      else if p = 'b' ∨ p = 'B' then some 2
      else none
    radix.bind fun r =>
      let s := spanDigits r rest
      if s.1 ≠ [] ∧ s.2 = [] then some (digitsValue r s.1) else none
  | _ => none

/-- An optional `ExponentPart` that must reach the end of the text. -/
def parseExponent (cs : List Char) : Option Int :=
  match cs with
  | [] => some 0
  | c :: rest =>
    if c = 'e' ∨ c = 'E' then
      let signed : Bool × List Char :=
        match rest with
        | '+' :: r => (false, r)
        | '-' :: r => (true, r)
        | r => (false, r)
      let s := spanDigits 10 signed.2
      if s.1 ≠ [] ∧ s.2 = [] then
        some (if signed.1 then -(digitsValue 10 s.1 : Int) else (digitsValue 10 s.1 : Int))
      else none
    else none

/-- `StrUnsignedDecimalLiteral` other than `Infinity`: the pair `(n, e)` whose
mathematical value is `n * 10^e`. -/
def parseUnsignedDecimal (cs : List Char) : Option (Nat × Int) :=
  let ip := spanDigits 10 cs
  match ip.2 with
  | '.' :: r =>
    let fp := spanDigits 10 r
    if ip.1 = [] ∧ fp.1 = [] then none
    else (parseExponent fp.2).map fun ex =>
      (digitsValue 10 (ip.1 ++ fp.1), ex - (fp.1.length : Int))
  | rest =>
    if ip.1 = [] then none else (parseExponent rest).map fun ex => (digitsValue 10 ip.1, ex)

/-- `StrDecimalLiteral` after its sign. -/
def parseStrDecimal (neg : Bool) (cs : List Char) : JSNumber :=
  if cs = "Infinity".data then .inf neg
  else
    match parseUnsignedDecimal cs with
    | some (n, e) => roundDecimal neg n e
    | none => .nan

/-- The abstract operation `StringToNumber`: the Number a string converts to. -/
def StringToNumber (s : String) : JSNumber :=
  match trimChars s.data with
  | [] => .zero
  | c :: rest =>
    match parseNonDecimal (c :: rest) with
    | some n => roundToDouble false n 1
    | none =>
      if c = '-' then parseStrDecimal true rest
      else if c = '+' then parseStrDecimal false rest
      else parseStrDecimal false (c :: rest)

/-! ## `Number::toString` (ECMA-262 6.1.6.1.20), radix 10 -/

/-- Number of decimal digits of `n` (`0` for `0`). -/
def decimalLength : Nat → Nat → Nat
  | 0, _ => 0
  | fuel + 1, n => if n = 0 then 0 else decimalLength fuel (n / 10) + 1

/-- For `0 < N / D < 1`: the number of zeros between the decimal point and the
first significant digit. -/
def leadingZeros : Nat → Nat → Nat → Nat
  | 0, _, _ => 0
  | fuel + 1, N, D => if D ≤ N * 10 then 0 else leadingZeros fuel (N * 10) D + 1

/-- The integer `L` with `10^(L-1) ≤ N / D < 10^L`. -/
def decimalPosition (N D : Nat) : Int :=
  if D ≤ N then (decimalLength (N / D) (N / D) : Int) else -(leadingZeros 400 N D : Int)

/-- A `k`-digit integer `s` and position `n` with `s * 10^(n-k)` converting to
`x`, if there is one; the closest to `x` when two qualify. -/
def digitCandidate (x : JSNumber) (N D : Nat) (L : Int) (k : Nat) : Option (Nat × Int) :=
  let sc : Int := L - (k : Int)
  let num : Nat := if 0 ≤ sc then N else N * 10 ^ (-sc).toNat
  let den : Nat := if 0 ≤ sc then D * 10 ^ sc.toNat else D
  let lo := num / den
  let r := num % den
  let hi : Nat × Int := if lo + 1 = 10 ^ k then (10 ^ (k - 1), L + 1) else (lo + 1, L)
  let okLo : Bool := decide (10 ^ (k - 1) ≤ lo) && decide (roundDecimal false lo sc = x)
  let okHi : Bool := decide (roundDecimal false hi.1 (hi.2 - (k : Int)) = x)
  if okLo ∧ okHi then
    (if 2 * r < den ∨ (2 * r = den ∧ lo % 2 = 0) then some (lo, L) else some hi)
  else if okLo then some (lo, L)
  else if okHi then some hi
  else none

/-- The triple `(s, k, n)` of `Number::toString` with `k` as small as possible. -/
def shortestDigits (x : JSNumber) (N D : Nat) (L : Int) : Nat → Nat → Nat × Nat × Int
  | 0, k => (0, k, L)
  | fuel + 1, k =>
    match digitCandidate x N D L k with
    | some c => (c.1, k, c.2)
    | none => shortestDigits x N D L fuel (k + 1)

/-- Steps 6 to 10 of `Number::toString`: lay out the digits of `s`. -/
def formatDigits (s k : Nat) (n : Int) : List Char :=
  let ds := Nat.toDigits 10 s
  if (k : Int) ≤ n ∧ n ≤ 21 then ds ++ List.replicate (n - (k : Int)).toNat '0'
  else if 0 < n ∧ n ≤ 21 then ds.take n.toNat ++ '.' :: ds.drop n.toNat
  else if -6 < n ∧ n ≤ 0 then '0' :: '.' :: (List.replicate (-n).toNat '0' ++ ds)
  else
    let ex : Int := n - 1
    let tail : List Char := 'e' :: (if ex < 0 then '-' else '+') :: Nat.toDigits 10 ex.natAbs
    if k = 1 then ds ++ tail else ds.take 1 ++ '.' :: (ds.drop 1 ++ tail)

/-- The string a Number converts to. -/
def NumberToString : JSNumber → String
  | .nan => "NaN"
  | .inf neg => if neg then "-Infinity" else "Infinity"
  | .fin neg m e =>
    if m = 0 then "0" else
    let N : Nat := if 0 ≤ e then m * 2 ^ e.toNat else m
    let D : Nat := if 0 ≤ e then 1 else 2 ^ (-e).toNat
    let d := shortestDigits (.fin false m e) N D (decimalPosition N D) 17 1
    String.mk ((if neg then ['-'] else []) ++ formatDigits d.1 d.2.1 d.2.2)

/-! ## Values -/

/-- The exceptions the program can meet: a `TypeError` (reading a property of
`null` or `undefined`, iterating a value that is not iterable, converting an
object that has no callable conversion method), the `SyntaxError` of
`JSON.parse`, and a rejected data-store call. -/
inductive JSError where
  | typeError
  | invalidJSON
  | rejected (reason : String)
  deriving DecidableEq

/-- A JavaScript value as `JSON.parse` builds it, or `undefined`.  A string is
the sequence of its code points; an object is the list of its own properties in
enumeration order, with distinct keys. -/
inductive Val where
  | undefined
  | null
  | bool (b : Bool)
  | num (n : JSNumber)
  | str (s : String)
  | arr (items : List Val)
  | obj (props : List (String × Val))

/-- The own properties of an object. -/
abbrev Props := List (String × Val)

mutual
/-- Decide equality of two values. -/
def Val.decEq : (a b : Val) → Decidable (a = b)
  | .undefined, .undefined => isTrue rfl
  | .null, .null => isTrue rfl
  | .bool a, .bool b =>
    if h : a = b then isTrue (by rw [h]) else isFalse (by intro h2; cases h2; exact h rfl)
  | .num a, .num b =>
    if h : a = b then isTrue (by rw [h]) else isFalse (by intro h2; cases h2; exact h rfl)
  | .str a, .str b =>
    if h : a = b then isTrue (by rw [h]) else isFalse (by intro h2; cases h2; exact h rfl)
  | .arr a, .arr b =>
    match Val.decEqItems a b with
    | isTrue h => isTrue (by rw [h])
    | isFalse h => isFalse (by intro h2; cases h2; exact h rfl)
  | .obj a, .obj b =>
    match Val.decEqProps a b with
    | isTrue h => isTrue (by rw [h])
    | isFalse h => isFalse (by intro h2; cases h2; exact h rfl)
  | .undefined, .null | .undefined, .bool _ | .undefined, .num _ | .undefined, .str _
  | .undefined, .arr _ | .undefined, .obj _ => isFalse (by intro h; cases h)
  | .null, .undefined | .null, .bool _ | .null, .num _ | .null, .str _
  | .null, .arr _ | .null, .obj _ => isFalse (by intro h; cases h)
  | .bool _, .undefined | .bool _, .null | .bool _, .num _ | .bool _, .str _
  | .bool _, .arr _ | .bool _, .obj _ => isFalse (by intro h; cases h)
  | .num _, .undefined | .num _, .null | .num _, .bool _ | .num _, .str _
  | .num _, .arr _ | .num _, .obj _ => isFalse (by intro h; cases h)
  | .str _, .undefined | .str _, .null | .str _, .bool _ | .str _, .num _
  | .str _, .arr _ | .str _, .obj _ => isFalse (by intro h; cases h)
  | .arr _, .undefined | .arr _, .null | .arr _, .bool _ | .arr _, .num _
  | .arr _, .str _ | .arr _, .obj _ => isFalse (by intro h; cases h)
  | .obj _, .undefined | .obj _, .null | .obj _, .bool _ | .obj _, .num _
  | .obj _, .str _ | .obj _, .arr _ => isFalse (by intro h; cases h)
/-- Decide equality of two lists of values. -/
def Val.decEqItems : (a b : List Val) → Decidable (a = b)
  | [], [] => isTrue rfl
  | [], _ :: _ => isFalse (by intro h; cases h)
  | _ :: _, [] => isFalse (by intro h; cases h)
  | x :: xs, y :: ys =>
    match Val.decEq x y, Val.decEqItems xs ys with
    | isTrue h1, isTrue h2 => isTrue (by rw [h1, h2])
    | isFalse h1, _ => isFalse (by intro h; cases h; exact h1 rfl)
    | _, isFalse h2 => isFalse (by intro h; cases h; exact h2 rfl)
/-- Decide equality of two property lists. -/
def Val.decEqProps : (a b : List (String × Val)) → Decidable (a = b)
  | [], [] => isTrue rfl
  | [], _ :: _ => isFalse (by intro h; cases h)
  | _ :: _, [] => isFalse (by intro h; cases h)
  | (k1, x) :: xs, (k2, y) :: ys =>
    if hk : k1 = k2 then
      match Val.decEq x y, Val.decEqProps xs ys with
      | isTrue h1, isTrue h2 => isTrue (by rw [hk, h1, h2])
      | isFalse h1, _ => isFalse (by intro h; cases h; exact h1 rfl)
      | _, isFalse h2 => isFalse (by intro h; cases h; exact h2 rfl)
    else isFalse (by intro h; cases h; exact hk rfl)
end

instance : DecidableEq Val := Val.decEq

deriving instance DecidableEq for Except

/-- The value of `props[key]`: the property if the object has it, else
`undefined`. -/
def lookup : Props → String → Val
  | [], _ => .undefined
  | (k, v) :: rest, key => if k = key then v else lookup rest key

/-- Whether the object has an own property `key`. -/
def hasOwn : Props → String → Bool
  | [], _ => false
  | (k, _) :: rest, key => if k = key then true else hasOwn rest key

/-- The assignment `props[key] = value`: an existing property keeps its place,
a new one goes last. -/
def setProp : Props → String → Val → Props
  | [], key, value => [(key, value)]
  | (k, v) :: rest, key, value =>
    if k = key then (k, value) :: rest else (k, v) :: setProp rest key value

/-- Whether the value is `null` or `undefined`. -/
def Val.isNullish : Val → Bool
  | .undefined => true
  | .null => true
  | _ => false

/-- The property read `v.key`, for the names this program reads (`_id`,
`inventory_id`, `created_at`, `price`, `quantity`, `exchange_type`, `status`,
`user`, `user_id`, `role_user`, `body`, `data`, `operation`, `Records`,
`eventSource`, `httpMethod`, `pathParameters`, `queryStringParameters`, `id`,
`Item`, `Items`, `Attributes`), none of which a string, number, boolean, array
or `Object.prototype` defines: a `TypeError` on `null` and `undefined`, the own
property of an object, `undefined` otherwise. -/
def Val.get (v : Val) (key : String) : Except JSError Val :=
  match v with
  | .undefined => .error .typeError
  | .null => .error .typeError
  | .obj props => .ok (lookup props key)
  | _ => .ok .undefined

/-- The properties `v.key` can find, for the names this program reads: those of
an object, none for a string, number, boolean or array. -/
def propsOf : Val → Props
  | .obj props => props
  | _ => []

/-- The optional read `v?.key`. -/
def Val.getOpt (v : Val) (key : String) : Val :=
  match v with
  | .obj props => lookup props key
  | _ => .undefined

/-- The conversion `ToBoolean`. -/
def truthy : Val → Bool
  | .undefined => false
  | .null => false
  | .bool b => b
  | .num .nan => false
  | .num (.inf _) => true
  | .num (.fin _ m _) => decide (m ≠ 0)
  | .str s => decide (s ≠ "")
  | .arr _ => true
  | .obj _ => true

mutual
/-- The conversion `ToString`.  An array converts through
`Array.prototype.join`; an object through `OrdinaryToPrimitive`: an own
`toString` property of a parsed object is never callable, and then `valueOf`
(own, not callable; or inherited, returning the object itself) gives no
primitive either, so the conversion throws a `TypeError`; otherwise the
inherited `Object.prototype.toString` answers. -/
def ToString : Val → Except JSError String
  | .undefined => .ok "undefined"
  | .null => .ok "null"
  | .bool b => .ok (if b then "true" else "false")
  | .num n => .ok (NumberToString n)
  | .str s => .ok s
  | .arr items =>
    match elementStrings items with
    | .error e => .error e
    | .ok parts => .ok (",".intercalate parts)
  | .obj props => if hasOwn props "toString" then .error .typeError else .ok "[object Object]"
/-- The strings `Array.prototype.join` puts between the separators: the empty
string for `null` and `undefined`, `ToString` of any other element. -/
def elementStrings : List Val → Except JSError (List String)
  | [] => .ok []
  | x :: rest =>
    match (if x.isNullish then Except.ok "" else ToString x) with
    | .error e => .error e
    | .ok a =>
      match elementStrings rest with
      | .error e => .error e
      | .ok b => .ok (a :: b)
end

/-- The conversion `ToNumber`.  Arrays and objects go through `ToPrimitive`
with hint number: `valueOf` never yields a primitive (see `ToString`), so the
result is that of `toString`, converted by `StringToNumber`. -/
def ToNumber (v : Val) : Except JSError JSNumber :=
  match v with
  | .undefined => .ok .nan
  | .null => .ok .zero
  | .bool b => .ok (if b then .one else .zero)
  | .num n => .ok n
  | .str s => .ok (StringToNumber s)
  | .arr items =>
    match ToString (.arr items) with
    | .error e => .error e
    | .ok s => .ok (StringToNumber s)
  | .obj props =>
    match ToString (.obj props) with
    | .error e => .error e
    | .ok s => .ok (StringToNumber s)

/-- The function `Number(value)`. -/
def Number (value : Val) : Except JSError JSNumber := ToNumber value

/-- The global `isNaN`, on a Number. -/
def isNaN : JSNumber → Bool
  | .nan => true
  | _ => false

/-- The global `isFinite`, on a Number. -/
def isFinite : JSNumber → Bool
  | .fin _ _ _ => true
  | _ => false

/-- The function `Number.isFinite`, on a Number. -/
def Number.isFinite (num : JSNumber) : Bool := HistoricalInventory.isFinite num

/-! ## `src/index.js`: normalization -/

/-- The function `sanitizeNumber` of `index.js`. -/
def sanitizeNumber (value : Val) : Except JSError JSNumber :=
  match value with
  | .null => .ok .zero
  | .undefined => .ok .zero
  | _ =>
    let special : Bool :=
      match value with
      | .str s =>
        decide (s = "NaN" ∨ s = "null" ∨ s = "undefined" ∨ trim s = "")
          || decide (s = "Infinity" ∨ s = "-Infinity")
      | _ => false
    if special then .ok .zero
    else
      match Number value with
      | .error e => .error e
      | .ok numValue =>
        if isNaN numValue ∨ ¬ isFinite numValue then .ok .zero else .ok numValue

/-- The function `buildNewItem` of `index.js`.  `uuid` is the string
`randomUUID()` returns in this call and `now` the string
`new Date().toISOString()` returns. -/
def buildNewItem (body : Val) (generateId : Bool) (uuid now : String) : Except JSError Val := do
  let id ← if generateId then pure (Val.str uuid) else body.get "_id"
  let inventory_id ← sanitizeNumber (← body.get "inventory_id")
  let supplied ← body.get "created_at"
  let created_at := if truthy supplied then supplied else Val.str now
  let price ← sanitizeNumber (← body.get "price")
  let quantity ← sanitizeNumber (← body.get "quantity")
  let exchange_type ← body.get "exchange_type"
  let status ← body.get "status"
  let user_id ← sanitizeNumber ((← body.get "user").getOpt "user_id")
  let role_user := (← body.get "user").getOpt "role_user"
  pure (Val.obj [("_id", id), ("inventory_id", .num inventory_id), ("created_at", created_at),
    ("price", .num price), ("quantity", .num quantity), ("exchange_type", exchange_type),
    ("status", status), ("user", .obj [("user_id", .num user_id), ("role_user", role_user)])])

/-- The indexed UTF-16 code units of a string, from index `i` on: a character of
the Basic Multilingual Plane is one code unit, any other character is two.  The
two halves of such a character are lone surrogates, which `Val.str` cannot hold;
each is stood for by the character itself. -/
def codeUnitProps : Nat → List Char → Props
  | _, [] => []
  | i, c :: cs =>
    if c.toNat < 0x10000 then (toString i, Val.str (String.mk [c])) :: codeUnitProps (i + 1) cs
    else
      (toString i, Val.str (String.mk [c])) :: (toString (i + 1), Val.str (String.mk [c]))
        :: codeUnitProps (i + 2) cs

/-- The own enumerable properties a spread `{...v}` copies: those of an object,
the indexed elements of an array, the indexed code units of a string, none for
any other value.  In `index.js` the spread of `sanitizeItem` only ever meets the
record `buildNewItem` returned, and that of `user` a non-null object or array. -/
def ownEnumerable : Val → Props
  | .obj props => props
  | .arr items => (List.range items.length).zip items |>.map fun p => (toString p.1, p.2)
  | .str s => codeUnitProps 0 s.data
  | _ => []

/-- The statement `if (key in sanitized) sanitized[key] = sanitizeNumber(sanitized[key])`
of `sanitizeItem`. -/
def sanitizeField (sanitized : Props) (key : String) : Except JSError Props :=
  if hasOwn sanitized key then
    match sanitizeNumber (lookup sanitized key) with
    | .error e => .error e
    | .ok n => .ok (setProp sanitized key (.num n))
  else .ok sanitized

/-- Whether `typeof v === 'object'`. -/
def isObjectType : Val → Bool
  | .null => true
  | .arr _ => true
  | .obj _ => true
  | _ => false

/-- The function `sanitizeItem` of `index.js`. -/
def sanitizeItem (item : Val) : Except JSError Val := do
  let sanitized := ownEnumerable item
  let sanitized ← sanitizeField sanitized "inventory_id"
  let sanitized ← sanitizeField sanitized "price"
  let sanitized ← sanitizeField sanitized "quantity"
  let user := lookup sanitized "user"
  if truthy user ∧ isObjectType user then
    let user_id ← sanitizeNumber (user.getOpt "user_id")
    pure (Val.obj (setProp sanitized "user" (.obj (setProp (ownEnumerable user) "user_id" (.num user_id)))))
  else pure (Val.obj sanitized)

/-! ## `src/index.js`: data-store calls -/

/-- The commands of the document client, with the fields the program fills. -/
inductive Command where
  | put (TableName Item : Val)
  | get (TableName Key : Val)
  | update (TableName Key : Val) (UpdateExpression : String)
      (ExpressionAttributeValues : Val) (ReturnValues : String)
  | delete (TableName Key : Val)
  | query (TableName IndexName : Val) (KeyConditionExpression : String)
      (ExpressionAttributeValues : Val)
  | scan (TableName : Val)
  deriving DecidableEq

/-- What the program takes from its platform.  `randomUUID k` and
`toISOString k` are the strings the `k`-th call of `randomUUID()` and of
`new Date().toISOString()` return; `send` is `ddbDocClient.send` on a store
of state `σ`: the new state and the resolved value or the rejection. -/
structure Host (σ : Type) where
  TABLE_NAME : Val
  INDEX_NAME : Val
  randomUUID : Nat → String
  toISOString : Nat → String
  JSONparse : Val → Except JSError Val
  JSONstringify : Val → String
  message : JSError → Val
  send : Command → σ → σ × Except JSError Val

/-- The state an invocation acts on: the data store, and how many identifiers
and clock readings have been drawn. -/
structure World (σ : Type) where
  store : σ
  uuids : Nat
  clock : Nat
  deriving DecidableEq

/-- The object `buildResponse` returns. -/
structure Response where
  statusCode : Nat
  headers : List (String × String)
  body : String
  deriving DecidableEq

/-- The function `buildResponse` of `index.js`. -/
def buildResponse {σ : Type} (H : Host σ) (statusCode : Nat) (body : Val) : Response :=
  { statusCode := statusCode
    headers := [("Access-Control-Allow-Origin", "*"), ("Content-Type", "application/json")]
    body := H.JSONstringify body }

/-- Send one command, keeping the store it leaves. -/
def send {σ : Type} (H : Host σ) (command : Command) (w : World σ) :
    World σ × Except JSError Val :=
  let r := H.send command w.store
  ({ w with store := r.1 }, r.2)

/-- The `PutCommand` that `createRecord` of `index.js` builds. -/
def createCommand (TABLE_NAME item : Val) : Except JSError Command :=
  match sanitizeItem item with
  | .error e => .error e
  | .ok sanitizedItem => .ok (.put TABLE_NAME sanitizedItem)

/-- The function `createRecord` of `index.js`. -/
def createRecord {σ : Type} (H : Host σ) (item : Val) (w : World σ) :
    World σ × Except JSError Val :=
  match createCommand H.TABLE_NAME item with
  | .error e => (w, .error e)
  | .ok command =>
    match send H command w with
    | (w1, .error e) => (w1, .error e)
    | (w1, .ok _) => (w1, .ok .undefined)

/-- The loop of `updateRecord` over `Object.entries(sanitizedUpdates)`: the
assignments pushed to `updateExpressions` and the properties set on
`expressionAttributeValues`. -/
def updateEntries : Props → List String × Props → List String × Props
  | [], acc => acc
  | (key, value) :: rest, acc =>
    if key ≠ "_id" then
      updateEntries rest (acc.1 ++ [key ++ " = :" ++ key], setProp acc.2 (":" ++ key) value)
    else updateEntries rest acc

/-- The `UpdateCommand` that `updateRecord` of `index.js` builds. -/
def updateCommand (TABLE_NAME id updates : Val) : Except JSError Command :=
  match sanitizeItem updates with
  | .error e => .error e
  | .ok sanitizedUpdates =>
    let built := updateEntries (ownEnumerable sanitizedUpdates) ([], [])
    .ok (.update TABLE_NAME (.obj [("_id", id)]) ("SET " ++ ", ".intercalate built.1)
      (.obj built.2) "ALL_NEW")

/-- The function `updateRecord` of `index.js`. -/
def updateRecord {σ : Type} (H : Host σ) (id updates : Val) (w : World σ) :
    World σ × Except JSError Val :=
  match updateCommand H.TABLE_NAME id updates with
  | .error e => (w, .error e)
  | .ok command =>
    match send H command w with
    | (w1, .error e) => (w1, .error e)
    | (w1, .ok result) => (w1, result.get "Attributes")

/-- The function `getRecord` of `index.js`. -/
def getRecord {σ : Type} (H : Host σ) (id : Val) (w : World σ) : World σ × Except JSError Val :=
  match send H (.get H.TABLE_NAME (.obj [("_id", id)])) w with
  | (w1, .error e) => (w1, .error e)
  | (w1, .ok result) => (w1, result.get "Item")

/-- The function `deleteRecord` of `index.js`. -/
def deleteRecord {σ : Type} (H : Host σ) (id : Val) (w : World σ) :
    World σ × Except JSError Val :=
  match send H (.delete H.TABLE_NAME (.obj [("_id", id)])) w with
  | (w1, .error e) => (w1, .error e)
  | (w1, .ok _) => (w1, .ok .undefined)

/-- The expression `Items || []`. -/
def itemsOrEmpty (items : Val) : Val := if truthy items then items else .arr []

/-- The function `getByInventoryId` of `index.js`. -/
def getByInventoryId {σ : Type} (H : Host σ) (inventoryId : Val) (w : World σ) :
    World σ × Except JSError Val :=
  match sanitizeNumber inventoryId with
  | .error e => (w, .error e)
  | .ok n =>
    match send H (.query H.TABLE_NAME H.INDEX_NAME "inventory_id = :id" (.obj [(":id", .num n)])) w with
    | (w1, .error e) => (w1, .error e)
    | (w1, .ok result) =>
      match result.get "Items" with
      | .error e => (w1, .error e)
      | .ok items => (w1, .ok (itemsOrEmpty items))

/-- The function `getAllRecords` of `index.js`. -/
def getAllRecords {σ : Type} (H : Host σ) (w : World σ) : World σ × Except JSError Val :=
  match send H (.scan H.TABLE_NAME) w with
  | (w1, .error e) => (w1, .error e)
  | (w1, .ok result) =>
    match result.get "Items" with
    | .error e => (w1, .error e)
    | .ok items => (w1, .ok (itemsOrEmpty items))

/-! ## `src/index.js`: request handling -/

/-- The call `buildNewItem(body, generateId)` inside an invocation: it reads the
clock, and draws an identifier when `generateId` holds, before anything can
throw. -/
def buildNewItemIn {σ : Type} (H : Host σ) (body : Val) (generateId : Bool) (w : World σ) :
    World σ × Except JSError Val :=
  ({ w with uuids := if generateId then w.uuids + 1 else w.uuids, clock := w.clock + 1 },
    buildNewItem body generateId (H.randomUUID w.uuids) (H.toISOString w.clock))

/-- The body of the `try` block of `processSqsMessages`, for one record. -/
def processSqsRecord {σ : Type} (H : Host σ) (record : Val) (w : World σ) :
    World σ × Except JSError Val :=
  match record.get "body" with
  | .error e => (w, .error e)
  | .ok text =>
    match H.JSONparse text with
    | .error e => (w, .error e)
    | .ok message =>
      match message.get "data" with
      | .error e => (w, .error e)
      | .ok data =>
        match buildNewItemIn H data true w with
        | (w1, .error e) => (w1, .error e)
        | (w1, .ok item) =>
          match message.get "operation" with
          | .error e => (w1, .error e)
          | .ok operation =>
            if operation = .str "update" then
              match item.get "_id" with
              | .error e => (w1, .error e)
              | .ok id => updateRecord H id item w1
            else createRecord H item w1

/-- The `for` loop of `processSqsMessages`: each record runs in its own
`try`, and the `catch` only logs. -/
def processSqsLoop {σ : Type} (H : Host σ) : List Val → World σ → World σ
  | [], w => w
  | record :: rest, w =>
    match processSqsRecord H record w with
    | (w1, .ok _) => processSqsLoop H rest w1
    | (w1, .error _) => processSqsLoop H rest w1

/-- The values a `for ... of` loop visits: the elements of an array, the
characters of a string; any other value here is not iterable. -/
def iterate : Val → Except JSError (List Val)
  | .arr items => .ok items
  | .str s => .ok (s.data.map fun c => Val.str (String.mk [c]))
  | _ => .error .typeError

/-- The function `processSqsMessages` of `index.js`. -/
def processSqsMessages {σ : Type} (H : Host σ) (records : Val) (w : World σ) :
    World σ × Except JSError Response :=
  match iterate records with
  | .error e => (w, .error e)
  | .ok items =>
    (processSqsLoop H items w,
      .ok (buildResponse H 200 (.obj [("message", .str "SQS messages processed")])))

/-- The function `handleGetRequest` of `index.js`. -/
def handleGetRequest {σ : Type} (H : Host σ) (pathParameters queryStringParameters : Val)
    (w : World σ) : World σ × Except JSError Response :=
  if truthy (queryStringParameters.getOpt "inventory_id") then
    match Number (queryStringParameters.getOpt "inventory_id") with
    | .error e => (w, .error e)
    | .ok n =>
      match getByInventoryId H (.num n) w with
      | (w1, .error e) => (w1, .error e)
      | (w1, .ok items) => (w1, .ok (buildResponse H 200 items))
  else if truthy (pathParameters.getOpt "id") then
    match getRecord H (pathParameters.getOpt "id") w with
    | (w1, .error e) => (w1, .error e)
    | (w1, .ok item) =>
      if truthy item then (w1, .ok (buildResponse H 200 item))
      else (w1, .ok (buildResponse H 404 (.obj [("message", .str "Item not found")])))
  else
    match getAllRecords H w with
    | (w1, .error e) => (w1, .error e)
    | (w1, .ok allItems) => (w1, .ok (buildResponse H 200 allItems))

/-- The function `handlePostRequest` of `index.js`. -/
def handlePostRequest {σ : Type} (H : Host σ) (body : Val) (w : World σ) :
    World σ × Except JSError Response :=
  match H.JSONparse body with
  | .error e => (w, .error e)
  | .ok requestBody =>
    match buildNewItemIn H requestBody true w with
    | (w1, .error e) => (w1, .error e)
    | (w1, .ok item) =>
      match createRecord H item w1 with
      | (w2, .error e) => (w2, .error e)
      | (w2, .ok _) => (w2, .ok (buildResponse H 201 item))

/-- The element `v[0]`; for a string its first code unit, where a first
character outside the Basic Multilingual Plane stands for its own first half (the
program only reads `eventSource` of the result, `undefined` on every string). -/
def Val.first : Val → Val
  | .arr items => items.headD .undefined
  | .obj props => lookup props "0"
  | .str s => match s.data with
    | [] => .undefined
    | c :: _ => .str (String.mk [c])
  | _ => .undefined

/-- The `try` block of `handler`. -/
def handlerTry {σ : Type} (H : Host σ) (event : Val) (w : World σ) :
    World σ × Except JSError Response :=
  match event.get "Records" with
  | .error e => (w, .error e)
  | .ok records =>
    match (if truthy records then (records.first.get "eventSource").map (fun src => decide (src = Val.str "aws:sqs"))
      else .ok false) with
    | .error e => (w, .error e)
    | .ok true => processSqsMessages H records w
    | .ok false =>
      let httpMethod := event.getOpt "httpMethod"
      if httpMethod = .str "GET" then
        handleGetRequest H (event.getOpt "pathParameters") (event.getOpt "queryStringParameters") w
      else if httpMethod = .str "POST" then handlePostRequest H (event.getOpt "body") w
      else (w, .ok (buildResponse H 405 (.obj [("message", .str "Method not allowed")])))

/-- The function `handler` of `index.js`: what the `try` block returns, or the
`500` response of the `catch`. -/
def handler {σ : Type} (H : Host σ) (event : Val) (w : World σ) : World σ × Response :=
  match handlerTry H event w with
  | (w1, .ok response) => (w1, response)
  | (w1, .error e) => (w1, buildResponse H 500 (.obj [("error", H.message e)]))

/-! ## Inputs on which the numeric coercion returns -/

mutual
/-- Whether `ToString`, and with it `ToNumber`, returns on `v`: no object with
an own `toString` property is met, in `v` itself or among the elements an
array conversion joins. -/
def convertible : Val → Bool
  | .arr items => allConvertible items
  | .obj props => !hasOwn props "toString"
  | _ => true
/-- Whether every element of the list is `convertible`. -/
def allConvertible : List Val → Bool
  | [] => true
  | x :: rest => convertible x && allConvertible rest
end

/-- What `sanitizeNumber` makes of the Number `n` that `Number` returned: `n`
itself when it is finite, else `0`. -/
def keepFinite (n : JSNumber) : JSNumber := if isFinite n then n else .zero

/-- The Number `sanitizeNumber` returns on `v` (`0` where it throws). -/
def coerced (v : Val) : JSNumber :=
  match sanitizeNumber v with
  | .ok n => n
  | .error _ => .zero

/-- Whether the four fields `buildNewItem` coerces are `convertible`. -/
def normalizable (props : Props) : Bool :=
  convertible (lookup props "inventory_id") && convertible (lookup props "price")
    && convertible (lookup props "quantity")
    && convertible ((lookup props "user").getOpt "user_id")

/-- The record `buildNewItem` builds from an object, with the Numbers
`sanitizeNumber` returns on its coerced fields. -/
def normalRecord (props : Props) (generateId : Bool) (uuid now : String) : Val :=
  .obj [("_id", if generateId then .str uuid else lookup props "_id"),
    ("inventory_id", .num (coerced (lookup props "inventory_id"))),
    ("created_at",
      if truthy (lookup props "created_at") then lookup props "created_at" else .str now),
    ("price", .num (coerced (lookup props "price"))),
    ("quantity", .num (coerced (lookup props "quantity"))),
    ("exchange_type", lookup props "exchange_type"),
    ("status", lookup props "status"),
    ("user", .obj [("user_id", .num (coerced ((lookup props "user").getOpt "user_id"))),
      ("role_user", (lookup props "user").getOpt "role_user")])]

/-- The value an update assigns to the field `key` of a payload that holds `value`
there: the coerced Number for `inventory_id`, `price` and `quantity`; for a
`user` that is a non-null object, a copy whose `user_id` is the coerced Number
of `user.user_id`; the value itself for any other field. -/
def assigned (key : String) (value : Val) : Val :=
  if key = "inventory_id" ∨ key = "price" ∨ key = "quantity" then .num (coerced value)
  else if key = "user" ∧ truthy value = true ∧ isObjectType value = true then
    .obj (setProp (ownEnumerable value) "user_id" (.num (coerced (value.getOpt "user_id"))))
  else value

/-- Whether the coercions an update applies to the field `key` holding `value`
return. -/
def assignable (key : String) (value : Val) : Bool :=
  if key = "inventory_id" ∨ key = "price" ∨ key = "quantity" then convertible value
  else if key = "user" ∧ truthy value = true ∧ isObjectType value = true then
    convertible (value.getOpt "user_id")
  else true

/-! ## A host for worked examples -/

/-- A host for worked examples.  Its store is the list of the commands received,
latest first, and every command resolves to an empty object; the `k`-th
identifier is `"id-k"` and the `k`-th clock reading `"t-k"`; `JSON.parse`
answers from the table `parsed` and throws a `SyntaxError` on any other text. -/
def exampleHost (parsed : List (Val × Val)) : Host (List Command) where
  TABLE_NAME := .str "HistoricalInventoryTable"
  INDEX_NAME := .str "InventoryIdIndex"
  randomUUID k := "id-" ++ toString k
  toISOString k := "t-" ++ toString k
  JSONparse text :=
    match parsed.find? (fun p => p.1 = text) with
    | some p => .ok p.2
    | none => .error .invalidJSON
  JSONstringify _ := "json"
  message _ := .str "message"
  send command store := (command :: store, .ok (.obj []))

/-! ## `src/utils.js` -/

/-- The local function `safeNumber` of `buildNewItem` in `utils.js`. -/
def Utils.safeNumber (value : Val) (defaultValue : JSNumber) : Except JSError JSNumber :=
  match Number value with
  | .error e => .error e
  | .ok num => if Number.isFinite num then .ok num else .ok defaultValue

/-- The function `buildNewItem` of `utils.js`; every call of `safeNumber` leaves
`defaultValue` at its default `0`. -/
def Utils.buildNewItem (body : Val) (generateId : Bool) (uuid now : String) :
    Except JSError Val := do
  let id ← if generateId then pure (Val.str uuid) else body.get "_id"
  let inventory_id ← Utils.safeNumber (← body.get "inventory_id") .zero
  let supplied ← body.get "created_at"
  let created_at := if truthy supplied then supplied else Val.str now
  let price ← Utils.safeNumber (← body.get "price") .zero
  let quantity ← Utils.safeNumber (← body.get "quantity") .zero
  let exchange_type ← body.get "exchange_type"
  let status ← body.get "status"
  let user_id ← Utils.safeNumber ((← body.get "user").getOpt "user_id") .zero
  let role_user := (← body.get "user").getOpt "role_user"
  pure (Val.obj [("_id", id), ("inventory_id", .num inventory_id), ("created_at", created_at),
    ("price", .num price), ("quantity", .num quantity), ("exchange_type", exchange_type),
    ("status", status), ("user", .obj [("user_id", .num user_id), ("role_user", role_user)])])

/-! # Theorems -/

/-! ## Conversions -/

/-! `ToString` returns exactly on the `convertible` values, and throws a
`TypeError` on the others. -/

mutual
theorem ToString_convertible (v : Val) (h : convertible v = true) : ∃ s, ToString v = .ok s := by
  cases v with
  | undefined => exact ⟨_, rfl⟩
  | null => exact ⟨_, rfl⟩
  | bool b => exact ⟨_, rfl⟩
  | num n => exact ⟨_, rfl⟩
  | str s => exact ⟨_, rfl⟩
  | arr items =>
    obtain ⟨parts, hp⟩ := elementStrings_convertible items (by simpa [convertible] using h)
    exact ⟨",".intercalate parts, by simp [ToString, hp]⟩
  | obj props =>
    simp [convertible] at h
    exact ⟨"[object Object]", by simp [ToString, h]⟩
theorem elementStrings_convertible (items : List Val) (h : allConvertible items = true) :
    ∃ parts, elementStrings items = .ok parts := by
  cases items with
  | nil => exact ⟨_, rfl⟩
  | cons x rest =>
    simp [allConvertible] at h
    obtain ⟨parts, hp⟩ := elementStrings_convertible rest h.2
    by_cases hx : x.isNullish = true
    · exact ⟨"" :: parts, by simp [elementStrings, hx, hp]⟩
    · obtain ⟨s, hs⟩ := ToString_convertible x h.1
      exact ⟨s :: parts, by simp [elementStrings, hx, hs, hp]⟩
end

mutual
theorem ToString_not_convertible (v : Val) (h : convertible v = false) :
    ToString v = .error .typeError := by
  cases v with
  | undefined => simp [convertible] at h
  | null => simp [convertible] at h
  | bool b => simp [convertible] at h
  | num n => simp [convertible] at h
  | str s => simp [convertible] at h
  | arr items =>
    have hp := elementStrings_not_convertible items (by simpa [convertible] using h)
    simp [ToString, hp]
  | obj props =>
    simp [convertible] at h
    simp [ToString, h]
theorem elementStrings_not_convertible (items : List Val) (h : allConvertible items = false) :
    elementStrings items = .error .typeError := by
  cases items with
  | nil => simp [allConvertible] at h
  | cons x rest =>
    by_cases hx : convertible x = true
    · have hr : allConvertible rest = false := by simpa [allConvertible, hx] using h
      have hp := elementStrings_not_convertible rest hr
      by_cases hn : x.isNullish = true
      · simp [elementStrings, hn, hp]
      · obtain ⟨s, hs⟩ := ToString_convertible x hx
        simp [elementStrings, hn, hs, hp]
    · have hx2 : convertible x = false := by simpa using hx
      have hs := ToString_not_convertible x hx2
      have hn : x.isNullish = false := by
        cases x <;> simp [convertible] at hx2 <;> rfl
      simp [elementStrings, hn, hs]
end

/-- `Number` returns on every `convertible` value. -/
theorem Number_convertible (v : Val) (h : convertible v = true) : ∃ n, Number v = .ok n := by
  cases v with
  | undefined => exact ⟨_, rfl⟩
  | null => exact ⟨_, rfl⟩
  | bool b => exact ⟨_, rfl⟩
  | num n => exact ⟨_, rfl⟩
  | str s => exact ⟨_, rfl⟩
  | arr items =>
    obtain ⟨s, hs⟩ := ToString_convertible _ h
    exact ⟨StringToNumber s, by simp [Number, ToNumber, hs]⟩
  | obj props =>
    obtain ⟨s, hs⟩ := ToString_convertible _ h
    exact ⟨StringToNumber s, by simp [Number, ToNumber, hs]⟩

/-- `Number` throws a `TypeError` on every value that is not `convertible`. -/
theorem Number_not_convertible (v : Val) (h : convertible v = false) :
    Number v = .error .typeError := by
  cases v with
  | undefined => simp [convertible] at h
  | null => simp [convertible] at h
  | bool b => simp [convertible] at h
  | num n => simp [convertible] at h
  | str s => simp [convertible] at h
  | arr items => simp [Number, ToNumber, ToString_not_convertible _ h]
  | obj props => simp [Number, ToNumber, ToString_not_convertible _ h]

/-- The Number `keepFinite` returns is finite. -/
theorem isFinite_keepFinite (n : JSNumber) : isFinite (keepFinite n) = true := by
  cases n <;> simp [keepFinite, isFinite, JSNumber.zero]

/-- A string that `trim` empties converts to `0`. -/
theorem StringToNumber_of_trim_eq_empty (s : String) (h : trim s = "") :
    StringToNumber s = .zero := by
  have h2 : trimChars s.data = [] := by
    have := congrArg String.data h
    simpa [trim] using this
  simp [StringToNumber, h2]

theorem StringToNumber_NaN : StringToNumber "NaN" = .nan := by decide

theorem StringToNumber_null : StringToNumber "null" = .nan := by decide

theorem StringToNumber_undefined : StringToNumber "undefined" = .nan := by decide

theorem StringToNumber_Infinity : StringToNumber "Infinity" = .inf false := by decide

theorem StringToNumber_negInfinity : StringToNumber "-Infinity" = .inf true := by decide

/-- The values that are not truthy. -/
theorem truthy_eq_false_iff (v : Val) :
    truthy v = false ↔
      (v = .undefined ∨ v = .null ∨ v = .bool false ∨ v = .num .nan
        ∨ (∃ neg e, v = .num (.fin neg 0 e)) ∨ v = .str "") := by
  cases v with
  | undefined => simp [truthy]
  | null => simp [truthy]
  | bool b => cases b <;> simp [truthy]
  | num n => cases n <;> simp [truthy]
  | str s => simp [truthy]
  | arr items => simp [truthy]
  | obj props => simp [truthy]

/-! ## The numeric coercion -/

/-- On every value: `sanitizeNumber` throws what `Number` throws, and otherwise
returns the Number `Number` gives when it is finite, else `0`. -/
theorem sanitizeNumber_eq (v : Val) :
    sanitizeNumber v = (Number v).map keepFinite := by
  cases v with
  | undefined => rfl
  | null => rfl
  | bool b => cases b <;> rfl
  | num n => cases n <;> rfl
  | str s =>
    by_cases h1 : s = "NaN"
    · subst h1; decide
    by_cases h2 : s = "null"
    · subst h2; decide
    by_cases h3 : s = "undefined"
    · subst h3; decide
    by_cases h5 : s = "Infinity"
    · subst h5; decide
    by_cases h6 : s = "-Infinity"
    · subst h6; decide
    by_cases h4 : trim s = ""
    · simp [sanitizeNumber, h4, Number, ToNumber, StringToNumber_of_trim_eq_empty s h4, Except.map,
        keepFinite, isFinite, JSNumber.zero]
    · simp only [sanitizeNumber, h1, h2, h3, h4, h5, h6, Number, ToNumber, Except.map]
      cases StringToNumber s <;> simp [keepFinite, isFinite, isNaN]
  | arr items =>
    simp only [sanitizeNumber]
    cases Number (.arr items) with
    | error e => rfl
    | ok n => cases n <;> simp [Except.map, keepFinite, isFinite, isNaN]
  | obj props =>
    simp only [sanitizeNumber]
    cases Number (.obj props) with
    | error e => rfl
    | ok n => cases n <;> simp [Except.map, keepFinite, isFinite, isNaN]

/-- On every value: `safeNumber` throws what `Number` throws, and otherwise
returns the Number `Number` gives when it is finite, else `0`. -/
theorem safeNumber_eq (v : Val) : Utils.safeNumber v .zero = (Number v).map keepFinite := by
  simp only [Utils.safeNumber, Number.isFinite]
  cases Number v with
  | error e => rfl
  | ok n => cases n <;> simp [Except.map, keepFinite, isFinite]

/-- On a `convertible` value `sanitizeNumber` returns a finite Number. -/
theorem sanitizeNumber_convertible (v : Val) (h : convertible v = true) :
    sanitizeNumber v = .ok (coerced v) ∧ isFinite (coerced v) = true := by
  obtain ⟨n, hn⟩ := Number_convertible v h
  have hs : sanitizeNumber v = .ok (keepFinite n) := by rw [sanitizeNumber_eq, hn]; rfl
  have hc : coerced v = keepFinite n := by simp [coerced, hs]
  rw [hc]
  exact ⟨hs, isFinite_keepFinite n⟩

/-- On a value that is not `convertible`, `sanitizeNumber` throws a `TypeError`. -/
theorem sanitizeNumber_not_convertible (v : Val) (h : convertible v = false) :
    sanitizeNumber v = .error .typeError := by
  rw [sanitizeNumber_eq, Number_not_convertible v h]; rfl

/-- The Number `coerced` names is finite. -/
theorem isFinite_coerced (v : Val) : isFinite (coerced v) = true := by
  cases h : convertible v with
  | true => exact (sanitizeNumber_convertible v h).2
  | false => simp [coerced, sanitizeNumber_not_convertible v h, isFinite, JSNumber.zero]

/-- A finite Number passes through `sanitizeNumber` unchanged. -/
theorem sanitizeNumber_num_of_isFinite (n : JSNumber) (h : isFinite n = true) :
    sanitizeNumber (.num n) = .ok n := by
  rw [sanitizeNumber_eq]
  simp [Number, ToNumber, Except.map, keepFinite, h]

/-! ## The normalizer -/

/-- Reading a property of a value that is neither `null` nor `undefined`. -/
theorem get_of_not_nullish (v : Val) (key : String) (h : v.isNullish = false) :
    v.get key = .ok (v.getOpt key) := by
  cases v <;> simp [Val.isNullish] at h <;> rfl

/-- Reading a property of `null` or `undefined` throws a `TypeError`. -/
theorem get_of_nullish (v : Val) (key : String) (h : v.isNullish = true) :
    v.get key = .error .typeError := by
  cases v <;> simp [Val.isNullish] at h <;> rfl

/-- On a payload that is neither `null` nor `undefined`, `buildNewItem` reads the
properties `propsOf` lists. -/
theorem buildNewItem_of_not_nullish (body : Val) (generateId : Bool) (uuid now : String)
    (h : body.isNullish = false) :
    buildNewItem body generateId uuid now
      = buildNewItem (.obj (propsOf body)) generateId uuid now := by
  cases body <;> simp [Val.isNullish] at h <;> rfl

/-- On a payload that is `null` or `undefined`, `buildNewItem` throws a `TypeError`. -/
theorem buildNewItem_of_nullish (body : Val) (generateId : Bool) (uuid now : String)
    (h : body.isNullish = true) :
    buildNewItem body generateId uuid now = .error .typeError := by
  cases body <;> simp [Val.isNullish] at h <;> cases generateId <;> rfl

/-- The record `buildNewItem` returns on an object whose coerced fields convert. -/
theorem buildNewItem_obj_ok (props : Props) (generateId : Bool) (uuid now : String)
    (h : normalizable props = true) :
    buildNewItem (.obj props) generateId uuid now = .ok (normalRecord props generateId uuid now) := by
  simp only [normalizable, Bool.and_eq_true] at h
  obtain ⟨⟨⟨h1, h2⟩, h3⟩, h4⟩ := h
  cases generateId <;>
    simp [buildNewItem, normalRecord, Val.get, bind, Except.bind, pure, Except.pure,
      (sanitizeNumber_convertible _ h1).1, (sanitizeNumber_convertible _ h2).1,
      (sanitizeNumber_convertible _ h3).1, (sanitizeNumber_convertible _ h4).1]

/-- On an object with a coerced field that does not convert, `buildNewItem`
throws a `TypeError`. -/
theorem buildNewItem_obj_error (props : Props) (generateId : Bool) (uuid now : String)
    (h : normalizable props = false) :
    buildNewItem (.obj props) generateId uuid now = .error .typeError := by
  simp only [normalizable, Bool.and_eq_false_iff] at h
  by_cases h1 : convertible (lookup props "inventory_id") = true
  · by_cases h2 : convertible (lookup props "price") = true
    · by_cases h3 : convertible (lookup props "quantity") = true
      · have h4 : convertible ((lookup props "user").getOpt "user_id") = false := by
          simpa [h1, h2, h3] using h
        cases generateId <;>
          simp [buildNewItem, Val.get, bind, Except.bind, pure, Except.pure,
            (sanitizeNumber_convertible _ h1).1, (sanitizeNumber_convertible _ h2).1,
            (sanitizeNumber_convertible _ h3).1, sanitizeNumber_not_convertible _ h4]
      · cases generateId <;>
          simp [buildNewItem, Val.get, bind, Except.bind, pure, Except.pure,
            (sanitizeNumber_convertible _ h1).1, (sanitizeNumber_convertible _ h2).1,
            sanitizeNumber_not_convertible _ (by simpa using h3)]
    · cases generateId <;>
        simp [buildNewItem, Val.get, bind, Except.bind, pure, Except.pure,
          (sanitizeNumber_convertible _ h1).1,
          sanitizeNumber_not_convertible _ (by simpa using h2)]
  · cases generateId <;>
      simp [buildNewItem, Val.get, bind, Except.bind, pure, Except.pure,
        sanitizeNumber_not_convertible _ (by simpa using h1)]

/-- On the payload `{"price": {"toString": 1}}`, `buildNewItem` throws a `TypeError`. -/
theorem buildNewItem_own_toString (generateId : Bool) (uuid now : String) :
    buildNewItem (.obj [("price", .obj [("toString", .num .one)])]) generateId uuid now
      = .error .typeError := by
  cases generateId <;> rfl

/-- A second pass of `sanitizeItem` over a record `buildNewItem` returned changes
nothing. -/
theorem sanitizeItem_normalRecord (props : Props) (generateId : Bool) (uuid now : String) :
    sanitizeItem (normalRecord props generateId uuid now)
      = .ok (normalRecord props generateId uuid now) := by
  simp [sanitizeItem, normalRecord, ownEnumerable, sanitizeField, hasOwn, lookup, setProp,
    truthy, isObjectType, Val.getOpt, bind, Except.bind, pure, Except.pure,
    sanitizeNumber_num_of_isFinite _ (isFinite_coerced _)]

/-! ## Objects as property lists -/

/-- Reading a property after an assignment. -/
theorem lookup_setProp (ps : Props) (k : String) (v : Val) (key : String) :
    lookup (setProp ps k v) key = if k = key then v else lookup ps key := by
  induction ps with
  | nil => simp [setProp, lookup]
  | cons p rest ih =>
    obtain ⟨a, b⟩ := p
    by_cases hak : a = k
    · subst hak
      by_cases hk : a = key <;> simp [setProp, lookup, hk]
    · by_cases hk : k = key
      · subst hk
        simp [setProp, lookup, hak, ih]
      · simp [setProp, lookup, hak, ih, hk]

/-- Assigning to an existing property keeps the keys and their order. -/
theorem keys_setProp (ps : Props) (k : String) (v : Val) (h : hasOwn ps k = true) :
    (setProp ps k v).map Prod.fst = ps.map Prod.fst := by
  induction ps with
  | nil => simp [hasOwn] at h
  | cons p rest ih =>
    obtain ⟨a, b⟩ := p
    by_cases hak : a = k
    · simp [setProp, hak]
    · simp [hasOwn, hak] at h
      simp [setProp, hak, ih h]

/-- An object has an own property exactly when the key is among its keys. -/
theorem hasOwn_eq_true_iff (ps : Props) (k : String) :
    hasOwn ps k = true ↔ k ∈ ps.map Prod.fst := by
  induction ps with
  | nil => simp [hasOwn]
  | cons p rest ih =>
    obtain ⟨a, b⟩ := p
    by_cases hak : a = k
    · simp [hasOwn, hak]
    · simp [hasOwn, hak, ih, Ne.symm hak]

/-- With distinct keys, every listed property is the one read under its key. -/
theorem lookup_of_mem (ps : Props) (hnd : (ps.map Prod.fst).Nodup) (p : String × Val)
    (hp : p ∈ ps) : lookup ps p.1 = p.2 := by
  induction ps with
  | nil => simp at hp
  | cons q rest ih =>
    obtain ⟨a, b⟩ := q
    simp only [List.map_cons, List.nodup_cons] at hnd
    rcases List.mem_cons.mp hp with h | h
    · subst h
      simp [lookup]
    · have hne : a ≠ p.1 := by
        intro hEq
        exact hnd.1 (hEq ▸ List.mem_map_of_mem Prod.fst h)
      simp [lookup, hne, ih hnd.2 h]

/-- Reading a missing property gives `undefined`. -/
theorem lookup_of_not_hasOwn (ps : Props) (key : String) (h : hasOwn ps key = false) :
    lookup ps key = .undefined := by
  induction ps with
  | nil => rfl
  | cons q rest ih =>
    obtain ⟨a, b⟩ := q
    by_cases ha : a = key
    · simp [hasOwn, ha] at h
    · simp [hasOwn, ha] at h
      simp [lookup, ha, ih h]

/-- Reading a property after every value was mapped by a function of key and value. -/
theorem lookup_map (ps : Props) (g : String → Val → Val) (key : String)
    (h : key ∈ ps.map Prod.fst) :
    lookup (ps.map fun p => (p.1, g p.1 p.2)) key = g key (lookup ps key) := by
  induction ps with
  | nil => simp at h
  | cons q rest ih =>
    obtain ⟨a, b⟩ := q
    by_cases hak : a = key
    · subst hak
      simp [lookup]
    · have : key ∈ rest.map Prod.fst := by
        simpa [Ne.symm hak] using h
      simp [lookup, hak, ih this]

/-- Two objects with the same keys in the same order, all distinct, and the same
value under each key are equal. -/
theorem props_ext (S T : Props) (hkeys : S.map Prod.fst = T.map Prod.fst)
    (hnd : (S.map Prod.fst).Nodup)
    (hval : ∀ key ∈ S.map Prod.fst, lookup S key = lookup T key) : S = T := by
  induction S generalizing T with
  | nil =>
    cases T with
    | nil => rfl
    | cons t rest => simp at hkeys
  | cons s rest ih =>
    cases T with
    | nil => simp at hkeys
    | cons t rest2 =>
      obtain ⟨a, b⟩ := s
      obtain ⟨c, d⟩ := t
      simp only [List.map_cons, List.cons.injEq] at hkeys
      obtain ⟨hac, hrest⟩ := hkeys
      subst hac
      simp only [List.map_cons, List.nodup_cons] at hnd
      have hb : b = d := by
        have := hval a (by simp)
        simpa [lookup] using this
      subst hb
      have hrec : rest = rest2 := by
        apply ih rest2 hrest hnd.2
        intro key hkey
        have hne : a ≠ key := fun hEq => hnd.1 (hEq ▸ hkey)
        have := hval key (by simp [hkey])
        simpa [lookup, hne] using this
      rw [hrec]

/-- Own properties after one more property was appended. -/
theorem hasOwn_append_single (acc : Props) (a : String) (v : Val) (key : String) :
    hasOwn (acc ++ [(a, v)]) key = (hasOwn acc key || decide (a = key)) := by
  induction acc with
  | nil => by_cases h : a = key <;> simp [hasOwn, h]
  | cons q rest ih =>
    obtain ⟨c, d⟩ := q
    by_cases hc : c = key <;> simp [hasOwn, hc, ih]

/-- Assigning to a missing property appends it. -/
theorem setProp_of_not_hasOwn (acc : Props) (key : String) (v : Val)
    (h : hasOwn acc key = false) : setProp acc key v = acc ++ [(key, v)] := by
  induction acc with
  | nil => rfl
  | cons q rest ih =>
    obtain ⟨c, d⟩ := q
    by_cases hc : c = key
    · simp [hasOwn, hc] at h
    · simp [hasOwn, hc] at h
      simp [setProp, hc, ih h]

/-- Distinct field names have distinct placeholders. -/
theorem colon_append_injective (a b : String) (h : ":" ++ a = ":" ++ b) : a = b := by
  have := congrArg String.data h
  simp only [String.data_append, List.append_cancel_left_eq] at this
  exact String.ext this

/-! ## The update instruction -/

/-- The loop of `updateRecord`, on an object with distinct keys none of which is
yet a placeholder of the accumulator. -/
theorem updateEntries_eq (es : Props) (acc : List String × Props)
    (hnd : (es.map Prod.fst).Nodup)
    (hfresh : ∀ p ∈ es, hasOwn acc.2 (":" ++ p.1) = false) :
    updateEntries es acc
      = (acc.1 ++ (es.filter fun p => p.1 ≠ "_id").map (fun p => p.1 ++ " = :" ++ p.1),
          acc.2 ++ (es.filter fun p => p.1 ≠ "_id").map (fun p => (":" ++ p.1, p.2))) := by
  induction es generalizing acc with
  | nil => simp [updateEntries]
  | cons q rest ih =>
    obtain ⟨a, b⟩ := q
    simp only [List.map_cons, List.nodup_cons] at hnd
    by_cases ha : a = "_id"
    · subst ha
      simp only [updateEntries, ne_eq, not_true_eq_false, if_false]
      rw [ih acc hnd.2 (fun p hp => hfresh p (List.mem_cons_of_mem _ hp))]
      simp
    · have hf : hasOwn acc.2 (":" ++ a) = false := hfresh (a, b) (List.mem_cons_self _ _)
      simp only [updateEntries, ne_eq, ha, not_false_eq_true, if_true]
      rw [ih _ hnd.2]
      · simp [setProp_of_not_hasOwn _ _ _ hf, ha]
      · intro p hp
        have hne : a ≠ p.1 := fun hEq => hnd.1 (hEq ▸ List.mem_map_of_mem Prod.fst hp)
        have hne2 : ¬ (":" ++ a = ":" ++ p.1) := fun hEq => hne (colon_append_injective _ _ hEq)
        simp [setProp_of_not_hasOwn _ _ _ hf, hasOwn_append_single,
          hfresh p (List.mem_cons_of_mem _ hp), hne2]

/-- One numeric pass of `sanitizeItem` over a field that converts: the keys stay,
and only that field changes, to its coerced Number. -/
theorem sanitizeField_spec (ps : Props) (key : String)
    (h : hasOwn ps key = true → convertible (lookup ps key) = true) :
    ∃ S, sanitizeField ps key = .ok S ∧ S.map Prod.fst = ps.map Prod.fst ∧
      (∀ k, hasOwn S k = hasOwn ps k) ∧
      ∀ k, lookup S k
        = if hasOwn ps key = true ∧ key = k then .num (coerced (lookup ps key)) else lookup ps k := by
  by_cases hk : hasOwn ps key = true
  · have hkeys := keys_setProp ps key (.num (coerced (lookup ps key))) hk
    refine ⟨setProp ps key (.num (coerced (lookup ps key))), ?_, hkeys, ?_, ?_⟩
    · simp [sanitizeField, hk, (sanitizeNumber_convertible _ (h hk)).1]
    · intro k
      exact Bool.eq_iff_iff.mpr (by rw [hasOwn_eq_true_iff, hasOwn_eq_true_iff, hkeys])
    · intro k
      simp [hk, lookup_setProp]
  · exact ⟨ps, by simp [sanitizeField, hk], rfl, fun _ => rfl, fun k => by simp [hk]⟩

/-- What `sanitizeItem` returns on an object with distinct keys whose coerced
fields convert: every field holds its `assigned` value. -/
theorem sanitizeItem_obj (props : Props) (hnd : (props.map Prod.fst).Nodup)
    (hconv : ∀ p ∈ props, assignable p.1 p.2 = true) :
    sanitizeItem (.obj props) = .ok (.obj (props.map fun p => (p.1, assigned p.1 p.2))) := by
  have hc : ∀ key, hasOwn props key = true → assignable key (lookup props key) = true := by
    intro key hk
    rw [hasOwn_eq_true_iff] at hk
    obtain ⟨p, hp, hpk⟩ := List.mem_map.mp hk
    have := hconv p hp
    rw [← lookup_of_mem props hnd p hp, hpk] at this
    exact this
  obtain ⟨S1, hs1, hk1, ho1, hl1⟩ := sanitizeField_spec props "inventory_id"
    (fun hk => by simpa [assignable] using hc _ hk)
  obtain ⟨S2, hs2, hk2, ho2, hl2⟩ := sanitizeField_spec S1 "price" (fun hk => by
    rw [ho1] at hk
    rw [hl1]
    simpa [assignable] using hc _ hk)
  obtain ⟨S3, hs3, hk3, ho3, hl3⟩ := sanitizeField_spec S2 "quantity" (fun hk => by
    rw [ho2, ho1] at hk
    simp only [hl2, hl1]
    simpa [assignable] using hc _ hk)
  have hkeys3 : S3.map Prod.fst = props.map Prod.fst := by rw [hk3, hk2, hk1]
  have hlook3 : ∀ k, hasOwn props k = true → lookup S3 k =
      if k = "inventory_id" ∨ k = "price" ∨ k = "quantity" then
        .num (coerced (lookup props k)) else lookup props k := by
    intro k hok
    simp only [hl3, hl2, hl1, ho2, ho1]
    by_cases k1 : k = "inventory_id"
    · subst k1; simp [hok]
    by_cases k2 : k = "price"
    · subst k2; simp [hok]
    by_cases k3 : k = "quantity"
    · subst k3; simp [hok]
    simp [k1, k2, k3, Ne.symm k1, Ne.symm k2, Ne.symm k3]
  have huser : lookup S3 "user" = lookup props "user" := by
    simp [hl3, hl2, hl1]
  have hstart : sanitizeItem (.obj props) =
      (if truthy (lookup props "user") = true ∧ isObjectType (lookup props "user") = true then
        (sanitizeNumber ((lookup props "user").getOpt "user_id")).map fun n =>
          Val.obj (setProp S3 "user"
            (.obj (setProp (ownEnumerable (lookup props "user")) "user_id" (.num n))))
       else .ok (Val.obj S3)) := by
    simp only [sanitizeItem, ownEnumerable, hs1, hs2, hs3, bind, Except.bind, huser]
    split
    · cases sanitizeNumber ((lookup props "user").getOpt "user_id") <;> rfl
    · rfl
  rw [hstart]
  by_cases hu : truthy (lookup props "user") = true ∧ isObjectType (lookup props "user") = true
  · have hown : hasOwn props "user" = true := by
      cases ho : hasOwn props "user" with
      | true => rfl
      | false =>
        rw [lookup_of_not_hasOwn props "user" ho] at hu
        simp [truthy] at hu
    have hcu : convertible ((lookup props "user").getOpt "user_id") = true := by
      have := hc "user" hown
      simpa [assignable, hu.1, hu.2] using this
    rw [if_pos hu, (sanitizeNumber_convertible _ hcu).1]
    simp only [Except.map]
    congr 2
    have hown3 : hasOwn S3 "user" = true := by
      rw [hasOwn_eq_true_iff, hkeys3, ← hasOwn_eq_true_iff]; exact hown
    apply props_ext
    · rw [keys_setProp _ _ _ hown3, hkeys3]; simp
    · rw [keys_setProp _ _ _ hown3, hkeys3]; exact hnd
    · intro key hkey
      rw [keys_setProp _ _ _ hown3, hkeys3] at hkey
      have hok : hasOwn props key = true := (hasOwn_eq_true_iff _ _).mpr hkey
      rw [lookup_setProp, hlook3 key hok, lookup_map props assigned key hkey]
      by_cases k0 : key = "user"
      · subst k0
        simp [assigned, hu.1, hu.2]
      by_cases k1 : key = "inventory_id"
      · subst k1; simp [assigned]
      by_cases k2 : key = "price"
      · subst k2; simp [assigned]
      by_cases k3 : key = "quantity"
      · subst k3; simp [assigned]
      simp [assigned, k0, k1, k2, k3, Ne.symm k0]
  · rw [if_neg hu]
    congr 2
    apply props_ext
    · rw [hkeys3]; simp
    · rw [hkeys3]; exact hnd
    · intro key hkey
      rw [hkeys3] at hkey
      have hok : hasOwn props key = true := (hasOwn_eq_true_iff _ _).mpr hkey
      rw [hlook3 key hok, lookup_map props assigned key hkey]
      by_cases k1 : key = "inventory_id"
      · subst k1; simp [assigned]
      by_cases k2 : key = "price"
      · subst k2; simp [assigned]
      by_cases k3 : key = "quantity"
      · subst k3; simp [assigned]
      by_cases k0 : key = "user"
      · subst k0
        simp [assigned, hu]
      simp [assigned, k0, k1, k2, k3]

/-- The instruction `updateRecord` builds on an object with distinct keys whose
coerced fields convert. -/
theorem updateCommand_obj (TABLE_NAME id : Val) (props : Props)
    (hnd : (props.map Prod.fst).Nodup) (hconv : ∀ p ∈ props, assignable p.1 p.2 = true) :
    updateCommand TABLE_NAME id (.obj props)
      = .ok (.update TABLE_NAME (.obj [("_id", id)])
          ("SET " ++ ", ".intercalate
            ((props.filter fun p => p.1 ≠ "_id").map fun p => p.1 ++ " = :" ++ p.1))
          (.obj ((props.filter fun p => p.1 ≠ "_id").map fun p => (":" ++ p.1, assigned p.1 p.2)))
          "ALL_NEW") := by
  have hnd2 : ((props.map fun p => (p.1, assigned p.1 p.2)).map Prod.fst).Nodup := by
    simpa [List.map_map, Function.comp_def] using hnd
  simp only [updateCommand, sanitizeItem_obj props hnd hconv, ownEnumerable]
  rw [updateEntries_eq _ ([], []) hnd2 (fun _ _ => rfl)]
  simp [List.filter_map, List.map_map, Function.comp_def]

/-- The instruction `updateRecord` builds on a record `buildNewItem` returned with
a generated identifier. -/
theorem updateCommand_normalRecord (TABLE_NAME id : Val) (props : Props) (uuid now : String) :
    updateCommand TABLE_NAME id (normalRecord props true uuid now)
      = .ok (.update TABLE_NAME (.obj [("_id", id)])
          "SET inventory_id = :inventory_id, created_at = :created_at, price = :price, quantity = :quantity, exchange_type = :exchange_type, status = :status, user = :user"
          (.obj [(":inventory_id", .num (coerced (lookup props "inventory_id"))),
            (":created_at",
              if truthy (lookup props "created_at") then lookup props "created_at" else .str now),
            (":price", .num (coerced (lookup props "price"))),
            (":quantity", .num (coerced (lookup props "quantity"))),
            (":exchange_type", lookup props "exchange_type"),
            (":status", lookup props "status"),
            (":user", .obj [("user_id", .num (coerced ((lookup props "user").getOpt "user_id"))),
              ("role_user", (lookup props "user").getOpt "role_user")])])
          "ALL_NEW") := by
  simp only [updateCommand, sanitizeItem_normalRecord]
  rfl

/-! ## Request handling -/

/-- The state after `updateRecord`: the store its command leaves, nothing else
changed. -/
theorem world_updateRecord {σ : Type} (H : Host σ) (id updates : Val) (command : Command)
    (w : World σ) (h : updateCommand H.TABLE_NAME id updates = .ok command) :
    (updateRecord H id updates w).1 = { w with store := (H.send command w.store).1 } := by
  simp only [updateRecord, h, send]
  rcases H.send command w.store with ⟨s, r⟩
  cases r <;> rfl

/-- The state after `createRecord`: the store its command leaves, nothing else
changed. -/
theorem world_createRecord {σ : Type} (H : Host σ) (item : Val) (command : Command)
    (w : World σ) (h : createCommand H.TABLE_NAME item = .ok command) :
    (createRecord H item w).1 = { w with store := (H.send command w.store).1 } := by
  simp only [createRecord, h, send]
  rcases H.send command w.store with ⟨s, r⟩
  cases r <;> rfl

/-- The loop over `pre ++ post` is the loop over `pre` followed by the loop over
`post`. -/
theorem processSqsLoop_append {σ : Type} (H : Host σ) (pre post : List Val) (w : World σ) :
    processSqsLoop H (pre ++ post) w = processSqsLoop H post (processSqsLoop H pre w) := by
  induction pre generalizing w with
  | nil => rfl
  | cons record rest ih =>
    simp only [List.cons_append, processSqsLoop]
    rcases processSqsRecord H record w with ⟨w1, r⟩
    cases r <;> exact ih w1

/-- A POST whose body parses to an object whose coerced fields convert, with a put
that resolves: the handler answers `201` with the record `buildNewItem` returned,
and the store is the one the put of that same record leaves. -/
theorem handler_post_201 {σ : Type} (H : Host σ) (text : Val) (props : Props) (w : World σ)
    (store : σ) (result : Val)
    (hparse : H.JSONparse text = .ok (.obj props)) (hnorm : normalizable props = true)
    (hput : H.send (.put H.TABLE_NAME
      (normalRecord props true (H.randomUUID w.uuids) (H.toISOString w.clock))) w.store
        = (store, .ok result)) :
    handler H (.obj [("httpMethod", .str "POST"), ("body", text)]) w
      = ({ store := store, uuids := w.uuids + 1, clock := w.clock + 1 },
          buildResponse H 201
            (normalRecord props true (H.randomUUID w.uuids) (H.toISOString w.clock))) := by
  simp [handler, handlerTry, Val.get, Val.getOpt, lookup, truthy, handlePostRequest, hparse,
    buildNewItemIn, buildNewItem_obj_ok props true _ _ hnorm, createRecord, createCommand,
    sanitizeItem_normalRecord, send, hput]

/-- The end-to-end scenario of the specification on the example host: the POST of
its JSON body is answered `201`, and the store receives the put of the record
with the generated identifier, `inventory_id = 7`, `price = 19.99`, `quantity = 3`
and `user.user_id = 5`. -/
theorem handler_post_example :
    handler (exampleHost [(.str "body-1", .obj [("inventory_id", .str "7"),
        ("price", .num (roundDecimal false 1999 (-2))), ("quantity", .str "3"),
        ("exchange_type", .str "buy"), ("status", .str "open"),
        ("user", .obj [("user_id", .str "5"), ("role_user", .str "trader")])])])
      (.obj [("httpMethod", .str "POST"), ("body", .str "body-1")]) ⟨[], 0, 0⟩
    = (⟨[.put (.str "HistoricalInventoryTable") (.obj [("_id", .str "id-0"),
          ("inventory_id", .num (roundDecimal false 7 0)), ("created_at", .str "t-0"),
          ("price", .num (roundDecimal false 1999 (-2))),
          ("quantity", .num (roundDecimal false 3 0)),
          ("exchange_type", .str "buy"), ("status", .str "open"),
          ("user", .obj [("user_id", .num (roundDecimal false 5 0)),
            ("role_user", .str "trader")])])], 1, 1⟩,
        ⟨201, [("Access-Control-Allow-Origin", "*"), ("Content-Type", "application/json")],
          "json"⟩) := by
  decide

/-! ## The claims -/

/-- Claim C1, at the input where it fails: on the parsed object `{"toString": 1}`
the conversion `Number(value)` throws a `TypeError`, and `sanitizeNumber` lets it
escape instead of returning `0`. -/
theorem sanitizeNumber_throws_on_own_toString :
    Number (.obj [("toString", .num .one)]) = .error .typeError ∧
      sanitizeNumber (.obj [("toString", .num .one)]) = .error .typeError := by
  decide

/-- Claim C2, at the input where it fails: on the payload `{"price": {"toString": 1}}`
`buildNewItem` throws a `TypeError`, for both values of `generateId`, and returns
no record. -/
theorem buildNewItem_throws_on_own_toString (generateId : Bool) (uuid now : String) :
    buildNewItem (.obj [("price", .obj [("toString", .num .one)])]) generateId uuid now
      = .error .typeError :=
  buildNewItem_own_toString generateId uuid now

/-- Claim C3 as stated fails: the payload `{"created_at": ""}` supplies a
`created_at`, yet the record carries the clock reading, not the supplied value. -/
theorem created_at_empty_string_replaced :
    hasOwn [("created_at", Val.str "")] "created_at" = true ∧
      ∃ item, buildNewItem (.obj [("created_at", .str "")]) true "id-1" "2026-01-01T00:00:00.000Z"
          = .ok item ∧
        item.get "created_at" = .ok (.str "2026-01-01T00:00:00.000Z") ∧
        item.get "created_at" ≠ .ok (.str "") :=
  ⟨by decide, _, rfl, by decide, by decide⟩

/-- Claim C3, amended: for every payload object, either a coerced field does not
convert and `buildNewItem` throws, or it returns a record whose `created_at` is
the payload's `created_at` when that value is truthy and the clock reading
otherwise; the values that are not truthy are `undefined` (an absent field),
`null`, `false`, `NaN`, the two zeros and the empty string. -/
theorem created_at_supplied_iff_truthy (props : Props) (generateId : Bool) (uuid now : String) :
    ((normalizable props = false ∧
        buildNewItem (.obj props) generateId uuid now = .error .typeError) ∨
      ∃ item, buildNewItem (.obj props) generateId uuid now = .ok item ∧
        item.get "created_at" = .ok (if truthy (lookup props "created_at") then
          lookup props "created_at" else .str now)) ∧
    (truthy (lookup props "created_at") = false ↔
      (lookup props "created_at" = .undefined ∨ lookup props "created_at" = .null
        ∨ lookup props "created_at" = .bool false ∨ lookup props "created_at" = .num .nan
        ∨ (∃ neg e, lookup props "created_at" = .num (.fin neg 0 e))
        ∨ lookup props "created_at" = .str "")) := by
  refine ⟨?_, truthy_eq_false_iff _⟩
  cases h : normalizable props with
  | false => exact Or.inl ⟨rfl, buildNewItem_obj_error props generateId uuid now h⟩
  | true =>
    refine Or.inr ⟨_, buildNewItem_obj_ok props generateId uuid now h, ?_⟩
    simp [normalRecord, Val.get, lookup]

/-- Claim C4 as stated fails: normalizing the empty payload twice gives two
records whose `created_at` differ, each being its own call's clock reading. -/
theorem created_at_differs_between_calls :
    ∃ item1 item2,
      buildNewItem (.obj []) true "id-1" "2026-01-01T00:00:00.000Z" = .ok item1 ∧
      buildNewItem (.obj []) true "id-2" "2026-01-01T00:00:00.001Z" = .ok item2 ∧
      item1.get "created_at" ≠ item2.get "created_at" :=
  ⟨_, _, rfl, rfl, by decide⟩

/-- Claim C4, amended: for every payload object and two calls with
`generateId = true`, either a coerced field does not convert and both calls
throw, or both return a record; each record's identifier is the one generated in
its call, so the identifiers differ when the two generated identifiers do; every
field other than `_id` and `created_at` has the same value in both; `created_at`
is the same supplied value in both when the payload's `created_at` is truthy, and
otherwise each call's own clock reading. -/
theorem buildNewItem_twice (props : Props) (uuid1 uuid2 now1 now2 : String) :
    (normalizable props = false ∧
        buildNewItem (.obj props) true uuid1 now1 = .error .typeError ∧
        buildNewItem (.obj props) true uuid2 now2 = .error .typeError) ∨
      ∃ item1 item2,
        buildNewItem (.obj props) true uuid1 now1 = .ok item1 ∧
        buildNewItem (.obj props) true uuid2 now2 = .ok item2 ∧
        item1.get "_id" = .ok (.str uuid1) ∧ item2.get "_id" = .ok (.str uuid2) ∧
        (uuid1 ≠ uuid2 → item1.get "_id" ≠ item2.get "_id") ∧
        (∀ key, key ≠ "_id" → key ≠ "created_at" → item1.get key = item2.get key) ∧
        (truthy (lookup props "created_at") = true →
          item1.get "created_at" = .ok (lookup props "created_at") ∧
          item2.get "created_at" = .ok (lookup props "created_at")) ∧
        (truthy (lookup props "created_at") = false →
          item1.get "created_at" = .ok (.str now1) ∧
          item2.get "created_at" = .ok (.str now2)) := by
  cases h : normalizable props with
  | false =>
    exact Or.inl ⟨rfl, buildNewItem_obj_error props true uuid1 now1 h,
      buildNewItem_obj_error props true uuid2 now2 h⟩
  | true =>
    refine Or.inr ⟨_, _, buildNewItem_obj_ok props true uuid1 now1 h,
      buildNewItem_obj_ok props true uuid2 now2 h, ?_, ?_, ?_, ?_, ?_, ?_⟩
    · simp [normalRecord, Val.get, lookup]
    · simp [normalRecord, Val.get, lookup]
    · intro hne
      simpa [normalRecord, Val.get, lookup] using hne
    · intro key h1 h2
      simp [normalRecord, Val.get, lookup, Ne.symm h1, Ne.symm h2]
    · intro ht
      simp [normalRecord, Val.get, lookup, ht]
    · intro ht
      simp [normalRecord, Val.get, lookup, ht]

/-- Claim C5, at the input where it fails: a queue message
`{"operation": "update", "data": {"price": "abc"}}`, the only way `index.js`
reaches `updateRecord`.  The instruction sent assigns seven fields, each stored
field being overwritten by a default, although `updateRecord` handed the payload
itself builds the single assignment `price = 0`. -/
theorem update_path_assigns_every_field {σ : Type} (H : Host σ) (record text : Val)
    (w : World σ) (hbody : record.get "body" = .ok text)
    (hparse : H.JSONparse text
      = .ok (.obj [("operation", .str "update"), ("data", .obj [("price", .str "abc")])])) :
    (processSqsRecord H record w).1
        = { store := (H.send (.update H.TABLE_NAME (.obj [("_id", .str (H.randomUUID w.uuids))])
              "SET inventory_id = :inventory_id, created_at = :created_at, price = :price, quantity = :quantity, exchange_type = :exchange_type, status = :status, user = :user"
              (.obj [(":inventory_id", .num .zero), (":created_at", .str (H.toISOString w.clock)),
                (":price", .num .zero), (":quantity", .num .zero),
                (":exchange_type", .undefined), (":status", .undefined),
                (":user", .obj [("user_id", .num .zero), ("role_user", .undefined)])])
              "ALL_NEW") w.store).1,
            uuids := w.uuids + 1, clock := w.clock + 1 } ∧
      updateCommand H.TABLE_NAME (.str (H.randomUUID w.uuids)) (.obj [("price", .str "abc")])
        = .ok (.update H.TABLE_NAME (.obj [("_id", .str (H.randomUUID w.uuids))])
            "SET price = :price" (.obj [(":price", .num .zero)]) "ALL_NEW") := by
  refine ⟨?_, rfl⟩
  have hitem : buildNewItem (.obj [("price", .str "abc")]) true (H.randomUUID w.uuids)
      (H.toISOString w.clock)
      = .ok (normalRecord [("price", .str "abc")] true (H.randomUUID w.uuids)
          (H.toISOString w.clock)) :=
    buildNewItem_obj_ok _ _ _ _ (by decide)
  have hcmd := updateCommand_normalRecord H.TABLE_NAME (.str (H.randomUUID w.uuids))
    [("price", .str "abc")] (H.randomUUID w.uuids) (H.toISOString w.clock)
  have hid : (normalRecord [("price", .str "abc")] true (H.randomUUID w.uuids)
      (H.toISOString w.clock)).get "_id" = .ok (.str (H.randomUUID w.uuids)) := rfl
  have hdata : (Val.obj [("operation", .str "update"),
      ("data", .obj [("price", .str "abc")])]).get "data" = .ok (.obj [("price", .str "abc")]) :=
    rfl
  have hoper : (Val.obj [("operation", .str "update"),
      ("data", .obj [("price", .str "abc")])]).get "operation" = .ok (.str "update") := rfl
  simp only [processSqsRecord, hbody, hparse, hdata, buildNewItemIn, hitem, hoper, hid, if_true]
  rw [world_updateRecord H _ _ _ _ hcmd]
  rfl

/-- Claim C5 on the example host: the update message with payload
`{"price": "abc"}` makes the store receive one update of seven assignments. -/
theorem update_path_assigns_every_field_witness :
    (processSqsRecord
        (exampleHost [(.str "m2", .obj [("operation", .str "update"),
          ("data", .obj [("price", .str "abc")])])])
        (.obj [("body", .str "m2")]) ⟨[], 0, 0⟩).1
      = ⟨[.update (.str "HistoricalInventoryTable") (.obj [("_id", .str "id-0")])
          "SET inventory_id = :inventory_id, created_at = :created_at, price = :price, quantity = :quantity, exchange_type = :exchange_type, status = :status, user = :user"
          (.obj [(":inventory_id", .num .zero), (":created_at", .str "t-0"),
            (":price", .num .zero), (":quantity", .num .zero),
            (":exchange_type", .undefined), (":status", .undefined),
            (":user", .obj [("user_id", .num .zero), ("role_user", .undefined)])])
          "ALL_NEW"], 1, 1⟩ :=
  (update_path_assigns_every_field
    (exampleHost [(.str "m2", .obj [("operation", .str "update"),
      ("data", .obj [("price", .str "abc")])])])
    (.obj [("body", .str "m2")]) (.str "m2") ⟨[], 0, 0⟩ (by decide) (by decide)).1

/-- Claim C6: for every batch of queue records, `processSqsMessages` returns the
success response (status 200, message `SQS messages processed`) whatever
happened to the records; a batch `pre ++ post` is handled as `pre` and then
`post` from the state `pre` left; and a single record leaves the state that
handling it leaves, whether its handling returned or threw.  So every record is
handled, in order, and a failure stops nothing after it. -/
theorem processSqsMessages_total {σ : Type} (H : Host σ) (records : List Val) (w : World σ) :
    (processSqsMessages H (.arr records) w).2
        = .ok (buildResponse H 200 (.obj [("message", .str "SQS messages processed")])) ∧
      (processSqsMessages H (.arr records) w).2
        = .ok ⟨200, [("Access-Control-Allow-Origin", "*"), ("Content-Type", "application/json")],
            H.JSONstringify (.obj [("message", .str "SQS messages processed")])⟩ ∧
      (∀ pre post : List Val, processSqsMessages H (.arr (pre ++ post)) w
        = processSqsMessages H (.arr post) (processSqsMessages H (.arr pre) w).1) ∧
      ∀ (record : Val) (rest : List Val),
        (processSqsMessages H (.arr [record]) w).1 = (processSqsRecord H record w).1 ∧
        processSqsMessages H (.arr (record :: rest)) w
          = processSqsMessages H (.arr rest) (processSqsRecord H record w).1 := by
  refine ⟨rfl, rfl, ?_, ?_⟩
  · intro pre post
    simp [processSqsMessages, iterate, processSqsLoop_append]
  · intro record rest
    simp only [processSqsMessages, iterate, processSqsLoop]
    rcases processSqsRecord H record w with ⟨w1, r⟩
    cases r <;> exact ⟨rfl, rfl⟩

/-- Claim C7, at the input where it fails: for a POST event whose body is the JSON
text of the object `{"price": {"toString": 1}}`, the handler answers `500` with the
error message, and sends nothing to the data store. -/
theorem handler_post_500_on_own_toString {σ : Type} (H : Host σ) (text : Val) (w : World σ)
    (hparse : H.JSONparse text = .ok (.obj [("price", .obj [("toString", .num .one)])])) :
    handler H (.obj [("httpMethod", .str "POST"), ("body", text)]) w
      = ({ w with uuids := w.uuids + 1, clock := w.clock + 1 },
          buildResponse H 500 (.obj [("error", H.message .typeError)])) ∧
      (handler H (.obj [("httpMethod", .str "POST"), ("body", text)]) w).2.statusCode = 500 ∧
      (handler H (.obj [("httpMethod", .str "POST"), ("body", text)]) w).1.store = w.store := by
  have h : handler H (.obj [("httpMethod", .str "POST"), ("body", text)]) w
      = ({ w with uuids := w.uuids + 1, clock := w.clock + 1 },
          buildResponse H 500 (.obj [("error", H.message .typeError)])) := by
    simp [handler, handlerTry, Val.get, Val.getOpt, lookup, truthy, handlePostRequest, hparse,
      buildNewItemIn, buildNewItem_own_toString]
  rw [h]
  exact ⟨rfl, rfl, rfl⟩

/-- Claim C7 on the example host: the POST of the JSON text
`{"price":{"toString":1}}` is answered `500`, and the store receives nothing. -/
theorem handler_post_500_witness :
    (handler (exampleHost [(.str "\x7b\"price\":\x7b\"toString\":1\x7d\x7d",
          .obj [("price", .obj [("toString", .num .one)])])])
        (.obj [("httpMethod", .str "POST"),
          ("body", .str "\x7b\"price\":\x7b\"toString\":1\x7d\x7d")]) ⟨[], 0, 0⟩).2.statusCode = 500 ∧
      (handler (exampleHost [(.str "\x7b\"price\":\x7b\"toString\":1\x7d\x7d",
          .obj [("price", .obj [("toString", .num .one)])])])
        (.obj [("httpMethod", .str "POST"),
          ("body", .str "\x7b\"price\":\x7b\"toString\":1\x7d\x7d")]) ⟨[], 0, 0⟩).1.store = [] :=
  (handler_post_500_on_own_toString
    (exampleHost [(.str "\x7b\"price\":\x7b\"toString\":1\x7d\x7d",
      .obj [("price", .obj [("toString", .num .one)])])])
    (.str "\x7b\"price\":\x7b\"toString\":1\x7d\x7d") ⟨[], 0, 0⟩ (by decide)).2

/-- Claim C8 as stated fails: a queue message `{"operation": "update"}` without
`data` draws an identifier and a clock reading, then `buildNewItem` throws, the
loop goes on, and the store receives no update; a message
`{"operation": "create", "data": null}` likewise creates no record. -/
theorem processSqsRecord_without_data :
    processSqsRecord (exampleHost [(.str "m0", .obj [("operation", .str "update")])])
        (.obj [("body", .str "m0")]) ⟨[], 0, 0⟩
      = (⟨[], 1, 1⟩, .error .typeError) ∧
    processSqsRecord
        (exampleHost [(.str "m0", .obj [("operation", .str "create"), ("data", .null)])])
        (.obj [("body", .str "m0")]) ⟨[], 0, 0⟩
      = (⟨[], 1, 1⟩, .error .typeError) := by
  decide

/-- Claim C8, amended: for every queue record whose body parses to a message,
exactly one of three things happens.  A message that is `null` throws before
anything is drawn.  A message whose `data` is missing or `null`, or has a coerced
field that does not convert, draws an identifier and a clock reading and then
throws: nothing is sent.  Any other message is normalized with the identifier
drawn for it, one more identifier and clock reading being consumed so that the
next message draws the next ones; when its operation is `"update"` the one
command sent is the update keyed by that generated identifier, whatever `_id` the
payload carries, and for any other operation it is the put of the record, whose
`_id` is that generated identifier. -/
theorem processSqsRecord_key {σ : Type} (H : Host σ) (record text message : Val) (w : World σ)
    (hbody : record.get "body" = .ok text) (hparse : H.JSONparse text = .ok message) :
    (message.isNullish = true ∧ processSqsRecord H record w = (w, .error .typeError)) ∨
    (message.isNullish = false ∧
      ((message.getOpt "data").isNullish = true ∨
        normalizable (propsOf (message.getOpt "data")) = false) ∧
      processSqsRecord H record w
        = ({ w with uuids := w.uuids + 1, clock := w.clock + 1 }, .error .typeError)) ∨
    (message.isNullish = false ∧ (message.getOpt "data").isNullish = false ∧
      normalizable (propsOf (message.getOpt "data")) = true ∧
      ∃ item,
        buildNewItem (message.getOpt "data") true (H.randomUUID w.uuids) (H.toISOString w.clock)
          = .ok item ∧
        item.get "_id" = .ok (.str (H.randomUUID w.uuids)) ∧
        (message.getOpt "operation" = .str "update" →
          ∃ values,
            updateCommand H.TABLE_NAME (.str (H.randomUUID w.uuids)) item
              = .ok (.update H.TABLE_NAME (.obj [("_id", .str (H.randomUUID w.uuids))])
                  "SET inventory_id = :inventory_id, created_at = :created_at, price = :price, quantity = :quantity, exchange_type = :exchange_type, status = :status, user = :user"
                  values "ALL_NEW") ∧
            (processSqsRecord H record w).1
              = { store := (H.send (.update H.TABLE_NAME
                    (.obj [("_id", .str (H.randomUUID w.uuids))])
                    "SET inventory_id = :inventory_id, created_at = :created_at, price = :price, quantity = :quantity, exchange_type = :exchange_type, status = :status, user = :user"
                    values "ALL_NEW") w.store).1,
                  uuids := w.uuids + 1, clock := w.clock + 1 }) ∧
        (message.getOpt "operation" ≠ .str "update" →
          createCommand H.TABLE_NAME item = .ok (.put H.TABLE_NAME item) ∧
          (processSqsRecord H record w).1
            = { store := (H.send (.put H.TABLE_NAME item) w.store).1,
                uuids := w.uuids + 1, clock := w.clock + 1 })) := by
  cases hm : message.isNullish with
  | true =>
    refine Or.inl ⟨rfl, ?_⟩
    simp [processSqsRecord, hbody, hparse, get_of_nullish message "data" hm]
  | false =>
    refine Or.inr ?_
    have hdata := get_of_not_nullish message "data" hm
    have hoper := get_of_not_nullish message "operation" hm
    cases hd : (message.getOpt "data").isNullish with
    | true =>
      refine Or.inl ⟨rfl, Or.inl rfl, ?_⟩
      simp [processSqsRecord, hbody, hparse, hdata, buildNewItemIn,
        buildNewItem_of_nullish _ true _ _ hd]
    | false =>
      have hprops := buildNewItem_of_not_nullish (message.getOpt "data") true
        (H.randomUUID w.uuids) (H.toISOString w.clock) hd
      cases hn : normalizable (propsOf (message.getOpt "data")) with
      | false =>
        refine Or.inl ⟨rfl, Or.inr rfl, ?_⟩
        simp [processSqsRecord, hbody, hparse, hdata, buildNewItemIn, hprops,
          buildNewItem_obj_error _ true _ _ hn]
      | true =>
        have hitem := hprops.trans (buildNewItem_obj_ok _ true (H.randomUUID w.uuids)
          (H.toISOString w.clock) hn)
        have hid : (normalRecord (propsOf (message.getOpt "data")) true (H.randomUUID w.uuids)
            (H.toISOString w.clock)).get "_id" = .ok (.str (H.randomUUID w.uuids)) := by
          simp [normalRecord, Val.get, lookup]
        refine Or.inr ⟨rfl, rfl, rfl, _, hitem, hid, ?_, ?_⟩
        · intro hop
          have hcmd := updateCommand_normalRecord H.TABLE_NAME (.str (H.randomUUID w.uuids))
            (propsOf (message.getOpt "data")) (H.randomUUID w.uuids) (H.toISOString w.clock)
          refine ⟨_, hcmd, ?_⟩
          simp only [processSqsRecord, hbody, hparse, hdata, buildNewItemIn, hitem, hoper, hop,
            hid, if_true]
          rw [world_updateRecord H _ _ _ _ hcmd]
        · intro hop
          have hcmd : createCommand H.TABLE_NAME
              (normalRecord (propsOf (message.getOpt "data")) true (H.randomUUID w.uuids)
                (H.toISOString w.clock))
              = .ok (.put H.TABLE_NAME
                (normalRecord (propsOf (message.getOpt "data")) true (H.randomUUID w.uuids)
                  (H.toISOString w.clock))) := by
            simp [createCommand, sanitizeItem_normalRecord]
          refine ⟨hcmd, ?_⟩
          simp only [processSqsRecord, hbody, hparse, hdata, buildNewItemIn, hitem, hoper, hop,
            if_false]
          rw [world_createRecord H _ _ _ hcmd]
          simp

/-- Claim C8, amended, on the example host: an `"update"` message whose payload
carries `_id = "k0"`, handled when one identifier has already been drawn, makes
the store receive one update keyed by the newly drawn `"id-1"`, and leaves two
identifiers drawn. -/
theorem processSqsRecord_key_witness :
    (processSqsRecord
        (exampleHost [(.str "m1", .obj [("operation", .str "update"),
          ("data", .obj [("_id", .str "k0"), ("price", .str "abc")])])])
        (.obj [("body", .str "m1")]) ⟨[], 1, 1⟩).1
      = ⟨[.update (.str "HistoricalInventoryTable") (.obj [("_id", .str "id-1")])
          "SET inventory_id = :inventory_id, created_at = :created_at, price = :price, quantity = :quantity, exchange_type = :exchange_type, status = :status, user = :user"
          (.obj [(":inventory_id", .num .zero), (":created_at", .str "t-1"),
            (":price", .num .zero), (":quantity", .num .zero),
            (":exchange_type", .undefined), (":status", .undefined),
            (":user", .obj [("user_id", .num .zero), ("role_user", .undefined)])])
          "ALL_NEW"], 2, 2⟩ := by
  rcases processSqsRecord_key
    (exampleHost [(.str "m1", .obj [("operation", .str "update"),
      ("data", .obj [("_id", .str "k0"), ("price", .str "abc")])])])
    (.obj [("body", .str "m1")]) (.str "m1")
    (.obj [("operation", .str "update"), ("data", .obj [("_id", .str "k0"), ("price", .str "abc")])])
    ⟨[], 1, 1⟩ (by decide) (by decide) with h | h | h
  · exact absurd h.1 (by decide)
  · rcases h.2.1 with h2 | h2 <;> exact absurd h2 (by decide)
  · obtain ⟨_, _, _, item, hitem, _, hupdate, _⟩ := h
    obtain ⟨values, hcmd, hworld⟩ := hupdate (by decide)
    have hrec : item = normalRecord [("_id", .str "k0"), ("price", .str "abc")] true "id-1" "t-1" :=
      Except.ok.inj (hitem.symm.trans (by decide))
    subst hrec
    have hvalues : values = .obj [(":inventory_id", .num .zero), (":created_at", .str "t-1"),
        (":price", .num .zero), (":quantity", .num .zero),
        (":exchange_type", .undefined), (":status", .undefined),
        (":user", .obj [("user_id", .num .zero), ("role_user", .undefined)])] := by
      have h := Except.ok.inj (hcmd.symm.trans (updateCommand_normalRecord _ _ _ _ _))
      injection h
    rw [hworld, hvalues]
    rfl

/-- Claim C9: for every payload object, either a coerced field does not convert
and `buildNewItem` throws, or it returns a record whose `_id` is the generated
identifier when `generateId` is true, whatever `_id` the payload carries, and
the payload's `_id` read as it is (`undefined` when absent) when `generateId` is
false. -/
theorem buildNewItem_id (props : Props) (generateId : Bool) (uuid now : String) :
    (normalizable props = false ∧
        buildNewItem (.obj props) generateId uuid now = .error .typeError) ∨
      ∃ item, buildNewItem (.obj props) generateId uuid now = .ok item ∧
        item.get "_id" = .ok (if generateId then .str uuid else lookup props "_id") := by
  cases h : normalizable props with
  | false => exact Or.inl ⟨rfl, buildNewItem_obj_error props generateId uuid now h⟩
  | true =>
    refine Or.inr ⟨_, buildNewItem_obj_ok props generateId uuid now h, ?_⟩
    simp [normalRecord, Val.get, lookup]

/-- Claim C10: `safeNumber` of `utils.js` and `sanitizeNumber` of `index.js` agree
on every value, in what they return and in what they throw, and so do the two
`buildNewItem` on every payload, flag, generated identifier and clock reading. -/
theorem utils_buildNewItem_eq :
    (∀ x : Val, Utils.safeNumber x .zero = sanitizeNumber x) ∧
      ∀ (body : Val) (generateId : Bool) (uuid now : String),
        Utils.buildNewItem body generateId uuid now = buildNewItem body generateId uuid now := by
  have h : ∀ x : Val, Utils.safeNumber x .zero = sanitizeNumber x := fun x => by
    rw [safeNumber_eq, sanitizeNumber_eq]
  refine ⟨h, ?_⟩
  intro body generateId uuid now
  simp only [Utils.buildNewItem, buildNewItem, h]

end HistoricalInventory
